import Mathlib

/-!
Verification development for the double-buffering pipeline example
(`src/examples/pipeline/src/Buffered_Socket.cpp`, `Block.cpp`, `main.cpp`).

The ring-buffer class `Circular_Buffer<T>` is declared in
`Circular_Buffer.hpp`, which is not among the sources; it is modelled from
the specification (sections 3, 4.1 and 7).  Everything else is translated
from the two `.cpp` files.  Records are modelled as lists of integers
(`Rcd`): the claims never depend on the scalar semantics of the six
element kinds, only on the kind tags, so one value type suffices.
-/

/-- A data record: a fixed-length flat sequence of scalars (spec section 3). -/
abbrev Rcd : Type := List Int

/-- Modelled from the spec: the state of `Circular_Buffer<T>`
(`Circular_Buffer.hpp` is absent from the sources).  A fixed-capacity FIFO
of records together with a monotonic `stopped` flag (spec sections 3, 4.1).
The occupied slots are `data`, oldest first. -/
structure CB (α : Type) where
  cap : Nat
  data : List α
  stopped : Bool
deriving DecidableEq

/-- Modelled from the spec: `Circular_Buffer` construction.  Capacity must
be at least 1; smaller values fail fast at construction time (spec
section 4.1 and section 7, CapacityMisuse). -/
def mkCB (A : Type) (buffer_size : Int) : Option (CB A) :=
  if buffer_size < 1 then none
  else some ⟨buffer_size.toNat, [], false⟩

/-- Modelled from the spec: the non-blocking push (`try_push` in the spec,
called `push` by `Buffered_Socket.cpp`), with the source polarity of the
return value: 1 means full / retry, 0 means completed.  On a full buffer
nothing is mutated (spec section 4.1); the contract does not consult the
`stopped` flag. -/
def CB.push {α : Type} (b : CB α) (r : α) : Nat × CB α :=
  if b.data.length = b.cap then (1, b)
  else (0, { b with data := b.data ++ [r] })

/-- Modelled from the spec: the non-blocking pop of the oldest occupied
slot, source polarity (1 = empty / retry, 0 = completed).  On an empty
buffer nothing is mutated (spec section 4.1). -/
def CB.pop {α : Type} (b : CB α) : Nat × CB α × Option α :=
  match b.data with
  | [] => (1, b, none)
  | r :: rest => (0, { b with data := rest }, some r)

/-- Modelled from the spec: `stop` sets the monotonic stopped flag. -/
def CB.stop {α : Type} (b : CB α) : CB α :=
  { b with stopped := true }

/-- One operation of the single producer / single consumer pair on one
buffer.  Single-producer/single-consumer discipline makes the operations
on one edge totally ordered (spec section 5), so a sequence of operations
is the faithful model of any such execution. -/
inductive BufOp (α : Type) where
  | push (r : α)
  | pop
deriving DecidableEq

/-- Running state of one buffer edge: the buffer, the records accepted by
`CB.push` so far (oldest first) and the records delivered by `CB.pop` so
far (oldest first). -/
structure BufRun (α : Type) where
  buf : CB α
  pushedOk : List α
  popped : List α
deriving DecidableEq

/-- Executes a sequence of producer/consumer operations on one buffer,
recording accepted pushes and delivered pops. -/
def runOps {α : Type} (s : BufRun α) : List (BufOp α) → BufRun α
  | [] => s
  | BufOp.push r :: ops =>
    let p := s.buf.push r
    runOps { buf := p.2,
             pushedOk := if p.1 = 0 then s.pushedOk ++ [r] else s.pushedOk,
             popped := s.popped } ops
  | BufOp.pop :: ops =>
    let p := s.buf.pop
    runOps { buf := p.2.1,
             pushedOk := s.pushedOk,
             popped := match p.2.2 with
                       | some r => s.popped ++ [r]
                       | none => s.popped } ops

/-- Socket direction, `aff3ct::module::Socket_type` as used by the sources. -/
inductive SockType where
  | IN
  | OUT
  | IN_OUT
deriving DecidableEq

/-- State of `Buffered_Socket<T>` (`Buffered_Socket.cpp`): the staging
records `socket_data` (index 0 is the record the worker fills or reads),
the owned or bound ring buffers, and `bound`, the index of the staging
record the underlying task socket is currently bound to
(`socket->bind<T>(*socket_data[i])` in the source). -/
structure BSock where
  stype : SockType
  n_elt : Nat
  buffer_size : Int
  socket_data : List Rcd
  buffers : List (CB Rcd)
  bound : Nat
deriving DecidableEq

/-- The `Buffered_Socket` constructor (`Buffered_Socket.cpp` lines 10-24):
one zero staging record, task socket bound to it; output and in-out
sockets additionally construct one ring buffer of the configured capacity
(whose spec-modelled constructor fails for capacity below 1), input
sockets construct none. -/
def mkBSock (stype : SockType) (n_elt : Nat) (buffer_size : Int) : Option BSock :=
  if stype = SockType.IN then
    some ⟨stype, n_elt, buffer_size, [List.replicate n_elt 0], [], 0⟩
  else
    match mkCB Rcd buffer_size with
    | none => none
    | some b => some ⟨stype, n_elt, buffer_size, [List.replicate n_elt 0], [b], 0⟩

/-- The inner retry loop of `Buffered_Socket::push`
(`Buffered_Socket.cpp` line 89): `while(buffer[i]->push(...)==1){}`.
The loop reads no stop flag; `fuel` bounds the number of modelled
iterations, `none` meaning the loop is still spinning after `fuel`
attempts. -/
def pushRetry {α : Type} (fuel : Nat) (b : CB α) (r : α) : Option (CB α) :=
  match fuel with
  | 0 => none
  | n + 1 =>
    let p := b.push r
    if p.1 = 1 then pushRetry n p.2 r else some p.2

/-- The per-buffer loop of `Buffered_Socket::push`
(`Buffered_Socket.cpp` lines 88-89): each owned buffer receives its
staging record through the inner retry loop. -/
def pushBufs {α : Type} (fuel : Nat) : List (CB α × α) → Option (List (CB α))
  | [] => some []
  | (b, r) :: rest =>
    match pushRetry fuel b r with
    | none => none
    | some b' =>
      match pushBufs fuel rest with
      | none => none
      | some bs => some (b' :: bs)

/-- `Buffered_Socket::push` (`Buffered_Socket.cpp` lines 78-93): copy
staging record 0 over every other staging record, push staging record i
into buffer i through the unbounded retry loop, then rebind the task
socket to staging record 0 and return 0. -/
def bsPush (fuel : Nat) (s : BSock) : Option BSock :=
  match s.socket_data with
  | [] => none
  | r0 :: _ =>
    match pushBufs fuel (s.buffers.zip (List.replicate s.socket_data.length r0)) with
    | none => none
    | some bs =>
      some { s with socket_data := List.replicate s.socket_data.length r0,
                    buffers := bs,
                    bound := 0 }

/-- `Buffered_Socket::pop` (`Buffered_Socket.cpp` lines 57-68): pop
`buffer[0]` into staging record 0; on no data return 1 without mutating,
otherwise rebind the task socket to staging record 0 and return 0.
`none` models the out-of-bounds access `buffer[0]` on a socket with no
buffer. -/
def bsPop (s : BSock) : Option (Nat × BSock) :=
  match s.buffers, s.socket_data with
  | b0 :: brest, sd0 :: sdrest =>
    let p := b0.pop
    if p.1 = 1 then some (1, s)
    else some (0, { s with buffers := p.2.1 :: brest,
                           socket_data := p.2.2.getD sd0 :: sdrest,
                           bound := 0 })
  | _, _ => none

/-- `Buffered_Socket::bind` (`Buffered_Socket.cpp` lines 122-133): if the
producer socket has no buffer, return 1 leaving the consumer unchanged;
otherwise append the last buffer of the producer to the consumer and
return 0.  The producer is never mutated. -/
def bsBind (c p : BSock) : Nat × BSock :=
  match p.buffers.getLast? with
  | none => (1, c)
  | some b => (0, { c with buffers := c.buffers ++ [b] })

/-- `Buffered_Socket::create_new_out_buffer` (`Buffered_Socket.cpp` lines
112-120): asserts the socket is not an input socket, then appends a fresh
zero staging record and a fresh ring buffer of the configured capacity.
`none` models the assertion failing or the spec-modelled buffer
constructor rejecting the capacity. -/
def createNewOutBuffer (s : BSock) : Option BSock :=
  if s.stype = SockType.IN then none
  else
    match mkCB Rcd s.buffer_size with
    | none => none
    | some b =>
      some { s with socket_data := s.socket_data ++ [List.replicate s.n_elt 0],
                    buffers := s.buffers ++ [b] }

/-- `Buffered_Socket::bind_cpy` (`Buffered_Socket.cpp` lines 135-148):
asserts the consumer is an input socket; if the producer has no buffer,
return 1 mutating nothing; otherwise ask the producer for a fresh buffer
and append that buffer to the consumer, returning 0. -/
def bsBindCpy (c p : BSock) : Option (Nat × BSock × BSock) :=
  if c.stype = SockType.IN then
    match p.buffers.getLast? with
    | none => some (1, c, p)
    | some _ =>
      match createNewOutBuffer p with
      | none => none
      | some p' =>
        match p'.buffers.getLast? with
        | none => none
        | some nb => some (0, { c with buffers := c.buffers ++ [nb] }, p')
  else none

/-- The closed set of scalar element kinds the block layer dispatches on
(`Block.cpp` lines 41-127). -/
inductive ScalarKind where
  | int8
  | int16
  | int32
  | int64
  | float32
  | float64
deriving DecidableEq

/-- The datatype-string dispatch of the `Block` constructor: the six
recognised strings, anything else is no kind (`Block.cpp` lines 43-125,
chains of `else if` with no final `else`). -/
def kindOfString (s : String) : Option ScalarKind :=
  if s = "int8" then some ScalarKind.int8
  else if s = "int16" then some ScalarKind.int16
  else if s = "int32" then some ScalarKind.int32
  else if s = "int64" then some ScalarKind.int64
  else if s = "float32" then some ScalarKind.float32
  else if s = "float64" then some ScalarKind.float64
  else none

/-- A declared task socket as the `Block` constructor sees it: name,
direction, datatype string and element count. -/
structure SockDecl where
  name : String
  stype : SockType
  dtype : String
  n_elt : Nat
deriving DecidableEq

/-- A constructed buffered port of a block: the scalar kind resolved at
construction plus the `Buffered_Socket` state. -/
structure Port where
  kind : ScalarKind
  sock : BSock
deriving DecidableEq

/-- A `Block` (`Block.cpp`): its named input ports and named output
ports. -/
structure Blk where
  ins : List (String × Port)
  outs : List (String × Port)
deriving DecidableEq

/-- First-match lookup in a name-to-port association list, as
`std::map::count` plus `operator[]` behave for the maps of `Block`. -/
def lookupPort (l : List (String × Port)) (nm : String) : Option Port :=
  match l with
  | [] => none
  | e :: rest => if e.1 = nm then some e.2 else lookupPort rest nm

/-- `std::map::emplace`: inserts only when the key is not yet present. -/
def emplace (l : List (String × Port)) (nm : String) (p : Port) : List (String × Port) :=
  match lookupPort l nm with
  | some _ => l
  | none => l ++ [(nm, p)]

/-- The socket loop of the `Block` constructor (`Block.cpp` lines 33-127):
sockets whose datatype string is not one of the six recognised kinds are
silently skipped; recognised input sockets go to the input map and all
other recognised sockets to the output map; a failing
`Buffered_Socket` construction fails the whole block construction. -/
def blockMakeAux (cap : Int) (acc : Blk) : List SockDecl → Option Blk
  | [] => some acc
  | d :: ds =>
    match kindOfString d.dtype with
    | none => blockMakeAux cap acc ds
    | some k =>
      match mkBSock d.stype d.n_elt cap with
      | none => none
      | some s =>
        if d.stype = SockType.IN then
          blockMakeAux cap { acc with ins := emplace acc.ins d.name ⟨k, s⟩ } ds
        else
          blockMakeAux cap { acc with outs := emplace acc.outs d.name ⟨k, s⟩ } ds

/-- The `Block` constructor (`Block.cpp` lines 11-128) restricted to the
port construction the claims are about. -/
def blockMake (decls : List SockDecl) (cap : Int) : Option Blk :=
  blockMakeAux cap ⟨[], []⟩ decls

/-- `Block::get_buffered_socket_in<T>` (`Block.cpp` lines 212-221): the
named input port if present and of the requested kind, else null. -/
def getIn (b : Blk) (nm : String) (k : ScalarKind) : Option Port :=
  match lookupPort b.ins nm with
  | some p => if p.kind = k then some p else none
  | none => none

/-- `Block::get_buffered_socket_out<T>` (`Block.cpp` lines 223-234). -/
def getOut (b : Blk) (nm : String) (k : ScalarKind) : Option Port :=
  match lookupPort b.outs nm with
  | some p => if p.kind = k then some p else none
  | none => none

/-- Outcome of `Block::bind`: a successful bind with the updated consumer
block, the reported non-fatal error (return value 1 after the message
`No socket named ...`, or `Buffered_Socket::bind` returning 1), or the
undefined behaviour of invoking `Buffered_Socket::bind` through a null
pointer (`Block.cpp` lines 143-165 pass the raw result of
`get_buffered_socket_out` to `bind` without a null check). -/
inductive BindOut where
  | ok (b : Blk)
  | err
  | crash
deriving DecidableEq

/-- Replaces the port stored under a name in an association list. -/
def updIns (l : List (String × Port)) (nm : String) (p : Port) : List (String × Port) :=
  l.map fun e => if e.1 = nm then (e.1, p) else e

/-- The call `socket_T->bind(dest_block.get_buffered_socket_out<T>(...))`
inside `Block::bind`: a null argument is a null-pointer dereference
inside `Buffered_Socket::bind` (modelled as `crash`); otherwise
`Buffered_Socket::bind` runs and on success the consumer block holds the
updated input port. -/
def bindCall (b : Blk) (nm : String) (p : Port) (q : Option Port) : BindOut :=
  match q with
  | none => BindOut.crash
  | some q' =>
    match q'.sock.buffers.getLast? with
    | none => BindOut.err
    | some buf =>
      BindOut.ok { b with
        ins := updIns b.ins nm ⟨p.kind, { p.sock with buffers := p.sock.buffers ++ [buf] }⟩ }

/-- The order in which `Block::bind` tries the six template
instantiations (`Block.cpp` lines 143-165). -/
def kindList : List ScalarKind :=
  [ScalarKind.int8, ScalarKind.int16, ScalarKind.int32,
   ScalarKind.int64, ScalarKind.float32, ScalarKind.float64]

/-- The cascade of kind-dispatched lookups in `Block::bind`. -/
def blockBindGo (b : Blk) (start : String) (dest : Blk) (dn : String) :
    List ScalarKind → BindOut
  | [] => BindOut.err
  | k :: ks =>
    match getIn b start k with
    | some p => bindCall b start p (getOut dest dn k)
    | none => blockBindGo b start dest dn ks

/-- `Block::bind` (`Block.cpp` lines 140-169): `b` is the consumer block
looking up its input port `start`, `dest` the producer block looked up
for its output port `dn`. -/
def blockBind (b : Blk) (start : String) (dest : Blk) (dn : String) : BindOut :=
  blockBindGo b start dest dn kindList

/-- How one pass of the per-port retry loop of `Block::execute_task`
ended: the pop delivered a record, or the stop flag was read as set. -/
inductive PollOut (α : Type) where
  | popped (r : α)
  | sawStop
deriving DecidableEq

/-- The per-port retry loop of `Block::execute_task`
(`Block.cpp` line 191, `while(!(*isDone) && it.second->pop(task_id)){}`).
The external stop flag is an arbitrary function of time; every loop
iteration reads it once at the current instant and time advances by one.
If the flag is unset a non-blocking pop is attempted on the port queue
(delivering the oldest record when one is available, retrying
otherwise).  `fuel` bounds the modelled iterations. -/
def pollPort {α : Type} (flag : Nat → Bool) :
    Nat → Nat → List α → Option (PollOut α × Nat × List α)
  | 0, _, _ => none
  | n + 1, t, q =>
    if flag t then some (PollOut.sawStop, t + 1, q)
    else
      match q with
      | [] => pollPort flag n (t + 1) []
      | r :: rest => some (PollOut.popped r, t + 1, rest)

/-- The loop over all input ports in `Block::execute_task`
(`Block.cpp` lines 190-191), threading the time instant. -/
def pollAll {α : Type} (flag : Nat → Bool) (fuel : Nat) :
    Nat → List (List α) → Option (List (PollOut α) × Nat × List (List α))
  | t, [] => some ([], t, [])
  | t, q :: qs =>
    match pollPort flag fuel t q with
    | none => none
    | some (o, t', q') =>
      match pollAll flag fuel t' qs with
      | none => none
      | some (os, t'', qs') => some (o :: os, t'', q' :: qs')

/-- How one iteration of the main worker loop ended: the
`if (*isDone) break;` fired, or the task execution point was reached. -/
inductive IterOut (α : Type) where
  | stoppedOut
  | executed (outs : List (PollOut α))
deriving DecidableEq

/-- One iteration of the main loop of `Block::execute_task`
(`Block.cpp` lines 188-196): poll every input port, then read the stop
flag once more; only when that read is unset is the task executed, with
the outcomes of the per-port polls. -/
def execIteration {α : Type} (flag : Nat → Bool) (fuel t : Nat) (qs : List (List α)) :
    Option (IterOut α × Nat × List (List α)) :=
  match pollAll flag fuel t qs with
  | none => none
  | some (os, t', qs') =>
    if flag t' then some (IterOut.stoppedOut, t' + 1, qs')
    else some (IterOut.executed os, t' + 1, qs')

/-- The external stop flag is set once and never cleared (spec section 5:
a process-wide boolean stop flag is the only cancellation primitive). -/
def FlagMono (flag : Nat → Bool) : Prop :=
  ∀ t, flag t = true → flag (t + 1) = true

/-- Fan-out trace operations on a producer output port with two bound
consumers: the task writes a record and the worker pushes it (through
`Buffered_Socket::push`), or consumer A resp. B drains one record from
its bound buffer.  Because `Buffered_Socket::bind` / `bind_cpy` share
the buffer object between producer and consumer, draining is performed
directly on the buffer owned by the producer. -/
inductive FanOp where
  | produce (r : Rcd)
  | drainA
  | drainB
deriving DecidableEq

/-- The task writing its output record into the staging record the task
socket is bound to (record 0 after any push or pop). -/
def setStaging (s : BSock) (r : Rcd) : BSock :=
  match s.socket_data with
  | [] => s
  | _ :: rest => { s with socket_data := r :: rest }

/-- One fan-out trace step.  A produce runs the embedded
`Buffered_Socket::push` with fuel 1, so it succeeds exactly when every
owned buffer has a free slot (capacity bound of the claim); a drain pops
the respective buffer, doing nothing when it is empty. -/
def fanStep (st : BSock × List Rcd × List Rcd) (op : FanOp) :
    Option (BSock × List Rcd × List Rcd) :=
  match op with
  | FanOp.produce r =>
    match bsPush 1 (setStaging st.1 r) with
    | none => none
    | some s' => some (s', st.2.1, st.2.2)
  | FanOp.drainA =>
    match st.1.buffers with
    | b0 :: rest =>
      let p := b0.pop
      if p.1 = 1 then some st
      else some ({ st.1 with buffers := p.2.1 :: rest },
                 st.2.1 ++ [p.2.2.getD []], st.2.2)
    | [] => none
  | FanOp.drainB =>
    match st.1.buffers with
    | b0 :: b1 :: rest =>
      let p := b1.pop
      if p.1 = 1 then some st
      else some ({ st.1 with buffers := b0 :: p.2.1 :: rest },
                 st.2.1, st.2.2 ++ [p.2.2.getD []])
    | _ => none

/-- Runs a fan-out trace. -/
def fanRun (st : BSock × List Rcd × List Rcd) : List FanOp → Option (BSock × List Rcd × List Rcd)
  | [] => some st
  | op :: ops =>
    match fanStep st op with
    | none => none
    | some st' => fanRun st' ops

/-- The records produced along a trace, in order. -/
def producedRcds : List FanOp → List Rcd
  | [] => []
  | FanOp.produce r :: ops => r :: producedRcds ops
  | FanOp.drainA :: ops => producedRcds ops
  | FanOp.drainB :: ops => producedRcds ops

/-- The contents of buffer `i` of a socket (oldest first). -/
def bufDataAt (s : BSock) (i : Nat) : List Rcd :=
  (s.buffers.getD i ⟨0, [], false⟩).data

/-- A consumer block with one int32 input port named U_K, as built by the
`Block` constructor. -/
def cBlkC2 : Blk :=
  (blockMake [⟨"U_K", SockType.IN, "int32", 4⟩] 8).getD ⟨[], []⟩

/-- A producer block with no ports at all. -/
def pBlkEmpty : Blk := ⟨[], []⟩

/-- A producer block whose only output port U_K has kind float32. -/
def pBlkFloat : Blk :=
  (blockMake [⟨"U_K", SockType.OUT, "float32", 4⟩] 8).getD ⟨[], []⟩

/-- A capacity-1 buffer holding one record, with the stop flag already
set: the destination of a push during shutdown that will stay full
forever because its consumer has exited. -/
def fullStoppedCB : CB Rcd := ⟨1, [[9]], true⟩

/-- An output socket whose single owned buffer is `fullStoppedCB`. -/
def sFullC3 : BSock := ⟨SockType.OUT, 1, 1, [[5]], [fullStoppedCB], 0⟩

/-- An output socket with two staging records and two owned buffers, the
worker having just written the record 7 into staging record 0. -/
def sC5 : BSock :=
  ⟨SockType.OUT, 1, 2, [[7], [0]], [⟨2, [], false⟩, ⟨2, [[3]], false⟩], 0⟩

/-- The state of `sC5` after a completed push. -/
def sC5res : BSock :=
  ⟨SockType.OUT, 1, 2, [[7], [7]], [⟨2, [[7]], false⟩, ⟨2, [[3], [7]], false⟩], 0⟩

/-- An input socket bound to a buffer holding the records 1 and 2, its
task socket currently bound to staging record 1. -/
def sIn6 : BSock := ⟨SockType.IN, 1, 4, [[0]], [⟨4, [[1], [2]], false⟩], 1⟩

/-- An unbound input socket. -/
def cIn7 : BSock := ⟨SockType.IN, 1, 4, [[0]], [], 0⟩

/-- A freshly constructed output socket of capacity 4. -/
def pOut7 : BSock := ⟨SockType.OUT, 1, 4, [[0]], [⟨4, [], false⟩], 0⟩

theorem runOps_inv {α : Type} (ops : List (BufOp α)) (s : BufRun α)
    (h : s.popped ++ s.buf.data = s.pushedOk) :
    (runOps s ops).popped ++ (runOps s ops).buf.data = (runOps s ops).pushedOk := by
  induction ops generalizing s with
  | nil => simpa [runOps] using h
  | cons op ops ih =>
    cases op with
    | push r =>
      simp only [runOps]
      apply ih
      simp only [CB.push]
      split
      · simpa using h
      · simp [← h, List.append_assoc]
    | pop =>
      simp only [runOps]
      apply ih
      simp only [CB.pop]
      cases hd : s.buf.data with
      | nil => simpa [hd] using h
      | cons r rest =>
        simp only []
        rw [← h, hd]
        simp

/-- Claim C1: for every sequence of push and pop operations on a single
ring buffer performed under single-producer/single-consumer discipline
while the buffer is not stopped, the sequence of delivered records
followed by the records still buffered equals the sequence of accepted
records: pops deliver in push order (FIFO), no record twice, none
dropped. -/
theorem c1_fifo_no_dup_no_drop {α : Type} (cap : Nat) (ops : List (BufOp α)) :
    (runOps ⟨⟨cap, [], false⟩, [], []⟩ ops).popped
      ++ (runOps ⟨⟨cap, [], false⟩, [], []⟩ ops).buf.data
      = (runOps ⟨⟨cap, [], false⟩, [], []⟩ ops).pushedOk :=
  runOps_inv ops _ rfl

/-- Claim C2 fails on the code: when the named input port exists on the
consumer but the destination lookup yields null, because the destination
name does not exist (first conjunct) or the destination port has a
different scalar kind (second conjunct), `Block::bind` passes the null
pointer straight into `Buffered_Socket::bind`, which dereferences it:
undefined behaviour, not a reported non-fatal error.  Only a start name
absent from the consumer takes the clean reported-error path (third
conjunct). -/
theorem c2_bind_null_deref :
    blockBind cBlkC2 ("U_K") pBlkEmpty ("U_K") = BindOut.crash ∧
    blockBind cBlkC2 ("U_K") pBlkFloat ("U_K") = BindOut.crash ∧
    blockBind cBlkC2 ("missing") pBlkFloat ("U_K") = BindOut.err := by
  refine ⟨?_, ?_, ?_⟩ <;> decide

/-- Claim C3 fails on the code: the inner retry loop of
`Buffered_Socket::push` (`Buffered_Socket.cpp` line 89) reads no stop
flag at all, so on a destination buffer that stays full forever it spins
for any number of iterations even though the buffer is already stopped;
the stop-flag check in `Block::execute_task` sits outside this loop and
can never interrupt it. -/
theorem c3_push_retry_never_exits :
    ∀ fuel : Nat, bsPush fuel sFullC3 = none := by
  have h : ∀ f : Nat, pushRetry f fullStoppedCB [5] = none := by
    intro f
    induction f with
    | zero => rfl
    | succ n ih => simpa [pushRetry, CB.push, fullStoppedCB] using ih
  intro fuel
  simp [bsPush, sFullC3, pushBufs, h]

theorem pushRetry_some {α : Type} (fuel : Nat) (b b' : CB α) (r : α)
    (h : pushRetry fuel b r = some b') :
    b' = { b with data := b.data ++ [r] } := by
  induction fuel with
  | zero => simp [pushRetry] at h
  | succ n ih =>
    rw [pushRetry] at h
    simp only [CB.push] at h
    by_cases hf : b.data.length = b.cap
    · simp [hf] at h
      exact ih h
    · simp [hf] at h
      exact h.symm

theorem pushBufs_some {α : Type} (fuel : Nat) (l : List (CB α × α)) (bs : List (CB α))
    (h : pushBufs fuel l = some bs) :
    bs = l.map (fun pr => { pr.1 with data := pr.1.data ++ [pr.2] }) := by
  induction l generalizing bs with
  | nil =>
    simp [pushBufs] at h
    simp [← h]
  | cons e rest ih =>
    obtain ⟨b, r⟩ := e
    rw [pushBufs] at h
    cases hpr : pushRetry fuel b r with
    | none => rw [hpr] at h; simp at h
    | some b1 =>
      rw [hpr] at h
      cases hpb : pushBufs fuel rest with
      | none => rw [hpb] at h; simp at h
      | some bs1 =>
        rw [hpb] at h
        simp only [Option.some.injEq] at h
        rw [← h, List.map_cons, ← pushRetry_some fuel b b1 r hpr, ← ih bs1 hpb]

theorem zip_replicate_of_le {α β : Type} (r : α) :
    ∀ (l : List β) (n : Nat), l.length ≤ n →
      l.zip (List.replicate n r) = l.map (fun b => (b, r))
  | [], _, _ => by simp
  | b :: rest, 0, h => by simp at h
  | b :: rest, n + 1, h => by
    simp only [List.replicate, List.zip_cons_cons, List.map_cons, List.cons.injEq,
      true_and]
    exact zip_replicate_of_le r rest n (by simpa using h)

theorem bsPush_shape (fuel : Nat) (s s' : BSock) (r0 : Rcd) (tl : List Rcd)
    (hsd : s.socket_data = r0 :: tl)
    (hlen : s.buffers.length ≤ s.socket_data.length)
    (h : bsPush fuel s = some s') :
    s' = { s with socket_data := List.replicate s.socket_data.length r0,
                  buffers := s.buffers.map (fun b => { b with data := b.data ++ [r0] }),
                  bound := 0 } := by
  rw [bsPush, hsd] at h
  simp only at h
  cases hpb : pushBufs fuel (s.buffers.zip (List.replicate (r0 :: tl).length r0)) with
  | none => rw [hpb] at h; simp at h
  | some bs =>
    rw [hpb] at h
    simp only [Option.some.injEq] at h
    have hz : s.buffers.zip (List.replicate (r0 :: tl).length r0)
        = s.buffers.map (fun b => (b, r0)) := by
      apply zip_replicate_of_le
      rw [← hsd]
      exact hlen
    have hbs : bs = s.buffers.map (fun b => { b with data := b.data ++ [r0] }) := by
      rw [pushBufs_some fuel _ bs hpb, hz, List.map_map]
      rfl
    rw [← h, hbs, hsd]

/-- Claim C5: whenever the non-blocking push of an output port completes
(for any bound on the inner retry loops), it has copied staging record 0
over every other staging record, delivered exactly one record, equal to
staging record 0, at the tail of every owned buffer, and rebound the
task socket to staging record 0. -/
theorem c5_push_replicates_delivers_rebinds (fuel : Nat) (s s' : BSock)
    (r0 : Rcd) (tl : List Rcd)
    (hsd : s.socket_data = r0 :: tl)
    (hlen : s.buffers.length ≤ s.socket_data.length)
    (h : bsPush fuel s = some s') :
    s'.socket_data = List.replicate s.socket_data.length r0 ∧
    s'.buffers = s.buffers.map (fun b => { b with data := b.data ++ [r0] }) ∧
    s'.bound = 0 := by
  rw [bsPush_shape fuel s s' r0 tl hsd hlen h]
  exact ⟨rfl, rfl, rfl⟩

/-- Witness for claim C5 at the concrete socket `sC5`. -/
theorem c5_push_replicates_delivers_rebinds_witness :
    sC5res.socket_data = List.replicate sC5.socket_data.length [7] ∧
    sC5res.buffers = sC5.buffers.map (fun b => { b with data := b.data ++ [[7]] }) ∧
    sC5res.bound = 0 :=
  c5_push_replicates_delivers_rebinds 1 sC5 sC5res [7] [[0]] rfl (by decide) (by decide)

/-- Claim C6: the non-blocking pop of an input port pops the oldest
available record of its bound buffer into staging record 0 and rebinds
the task socket to that staging record, returning 1 (retry needed) when
no data was available and 0 (done) after a successful transfer. -/
theorem c6_pop_oldest_rebinds_polarity (s : BSock) (b0 : CB Rcd)
    (brest : List (CB Rcd)) (sd0 : Rcd) (sdrest : List Rcd)
    (hb : s.buffers = b0 :: brest) (hsd : s.socket_data = sd0 :: sdrest) :
    (b0.data = [] → bsPop s = some (1, s)) ∧
    (∀ r rest, b0.data = r :: rest →
       bsPop s = some (0, { s with buffers := { b0 with data := rest } :: brest,
                                   socket_data := r :: sdrest,
                                   bound := 0 })) := by
  constructor
  · intro he
    rw [bsPop, hb, hsd]
    simp [CB.pop, he]
  · intro r rest hd
    rw [bsPop, hb, hsd]
    simp [CB.pop, hd]

/-- Witness for claim C6 at the concrete socket `sIn6`. -/
theorem c6_pop_oldest_rebinds_polarity_witness :
    bsPop sIn6 = some (0,
      { sIn6 with buffers := { (⟨4, [[1], [2]], false⟩ : CB Rcd) with data := [[2]] } :: [],
                  socket_data := [1] :: [],
                  bound := 0 }) :=
  (c6_pop_oldest_rebinds_polarity sIn6 ⟨4, [[1], [2]], false⟩ [] [0] [] rfl rfl).2
    [1] [[2]] rfl

/-- Claim C7: port-level `bind` and `bind_cpy` fail (returning 1 and
mutating nothing) exactly when the producer port has no buffer yet;
otherwise they succeed (returning 0) and leave the consumer referencing
a buffer of the producer: `bind` appends the last buffer of the
producer, `bind_cpy` appends the freshly created one, which the producer
then also owns.  Both fail under the same precondition. -/
theorem c7_bind_bindcpy_same_precondition (c p : BSock)
    (hc : c.stype = SockType.IN) (hp : p.stype ≠ SockType.IN)
    (hcap : 1 ≤ p.buffer_size) :
    ((bsBind c p).1 = 1 ↔ p.buffers = []) ∧
    (p.buffers = [] → bsBind c p = (1, c) ∧ bsBindCpy c p = some (1, c, p)) ∧
    (∀ b, p.buffers.getLast? = some b →
       bsBind c p = (0, { c with buffers := c.buffers ++ [b] })) ∧
    (p.buffers ≠ [] →
       bsBindCpy c p = some (0,
         { c with buffers := c.buffers ++ [⟨p.buffer_size.toNat, [], false⟩] },
         { p with socket_data := p.socket_data ++ [List.replicate p.n_elt 0],
                  buffers := p.buffers ++ [⟨p.buffer_size.toNat, [], false⟩] })) ∧
    (∀ r, bsBindCpy c p = some r → (r.1 = 1 ↔ p.buffers = [])) := by
  have hmk : mkCB Rcd p.buffer_size = some ⟨p.buffer_size.toNat, [], false⟩ := by
    rw [mkCB, if_neg (not_lt.mpr hcap)]
  have hcn : createNewOutBuffer p = some
      { p with
        socket_data := p.socket_data ++ [List.replicate p.n_elt 0],
        buffers := p.buffers ++ [⟨p.buffer_size.toNat, [], false⟩] } := by
    rw [createNewOutBuffer, if_neg hp, hmk]
  by_cases hbl : p.buffers = []
  · have hgl : p.buffers.getLast? = none := by simp [hbl]
    have hbcy : bsBindCpy c p = some (1, c, p) := by
      rw [bsBindCpy, if_pos hc, hgl]
    refine ⟨?_, ?_, ?_, ?_, ?_⟩
    · simp [bsBind, hgl, hbl]
    · exact fun _ => ⟨by simp [bsBind, hgl], hbcy⟩
    · intro b hb
      rw [hgl] at hb
      exact absurd hb (by simp)
    · intro hne
      exact absurd hbl hne
    · intro r hr
      rw [hbcy] at hr
      rw [← Option.some.inj hr]
      simp [hbl]
  · obtain ⟨bl, hbl2⟩ : ∃ b, p.buffers.getLast? = some b := by
      cases hx : p.buffers.getLast? with
      | none => exact absurd (List.getLast?_eq_none_iff.mp hx) hbl
      | some b => exact ⟨b, rfl⟩
    have hbc : bsBindCpy c p = some (0,
        { c with buffers := c.buffers ++ [⟨p.buffer_size.toNat, [], false⟩] },
        { p with
          socket_data := p.socket_data ++ [List.replicate p.n_elt 0],
          buffers := p.buffers ++ [⟨p.buffer_size.toNat, [], false⟩] }) := by
      rw [bsBindCpy, if_pos hc, hbl2, hcn]
      simp [List.getLast?_concat]
    refine ⟨?_, ?_, ?_, ?_, ?_⟩
    · simp [bsBind, hbl2, hbl]
    · intro hx
      exact absurd hx hbl
    · intro b hb
      have hble : bl = b := Option.some.inj (hbl2 ▸ hb)
      rw [bsBind, hbl2, hble]
    · exact fun _ => hbc
    · intro r hr
      rw [hbc] at hr
      rw [← Option.some.inj hr]
      simp [hbl]

/-- Witness for claim C7 at the concrete sockets `cIn7` and `pOut7`. -/
theorem c7_bind_bindcpy_same_precondition_witness :
    ((bsBind cIn7 pOut7).1 = 1 ↔ pOut7.buffers = []) ∧
    (pOut7.buffers = [] → bsBind cIn7 pOut7 = (1, cIn7) ∧
       bsBindCpy cIn7 pOut7 = some (1, cIn7, pOut7)) ∧
    (∀ b, pOut7.buffers.getLast? = some b →
       bsBind cIn7 pOut7 = (0, { cIn7 with buffers := cIn7.buffers ++ [b] })) ∧
    (pOut7.buffers ≠ [] →
       bsBindCpy cIn7 pOut7 = some (0,
         { cIn7 with buffers := cIn7.buffers ++ [⟨pOut7.buffer_size.toNat, [], false⟩] },
         { pOut7 with socket_data := pOut7.socket_data ++ [List.replicate pOut7.n_elt 0],
                      buffers := pOut7.buffers ++ [⟨pOut7.buffer_size.toNat, [], false⟩] })) ∧
    (∀ r, bsBindCpy cIn7 pOut7 = some r → (r.1 = 1 ↔ pOut7.buffers = [])) :=
  c7_bind_bindcpy_same_precondition cIn7 pOut7 rfl (by decide) (by decide)

theorem flagMono_le (flag : Nat → Bool) (hm : FlagMono flag)
    (t u : Nat) (hle : t ≤ u) (ht : flag t = true) : flag u = true := by
  induction hle with
  | refl => exact ht
  | step _ ih => exact hm _ ih

theorem pollPort_time {α : Type} (flag : Nat → Bool) :
    ∀ (fuel t : Nat) (q : List α) (o : PollOut α) (t' : Nat) (q' : List α),
      pollPort flag fuel t q = some (o, t', q') →
      t < t' ∧ (o = PollOut.sawStop → flag (t' - 1) = true) := by
  intro fuel
  induction fuel with
  | zero =>
    intro t q o t' q' h
    simp [pollPort] at h
  | succ n ih =>
    intro t q o t' q' h
    simp only [pollPort] at h
    by_cases hf : flag t = true
    · rw [if_pos hf] at h
      simp only [Option.some.injEq, Prod.mk.injEq] at h
      obtain ⟨ho, ht', hq'⟩ := h
      subst ht'
      refine ⟨Nat.lt_succ_self t, fun _ => ?_⟩
      simpa using hf
    · rw [if_neg hf] at h
      cases q with
      | nil =>
        have hr := ih (t + 1) [] o t' q' h
        exact ⟨Nat.lt_of_succ_lt hr.1, hr.2⟩
      | cons r rest =>
        simp only [Option.some.injEq, Prod.mk.injEq] at h
        obtain ⟨ho, ht', hq'⟩ := h
        subst ht'
        refine ⟨Nat.lt_succ_self t, fun hs => ?_⟩
        rw [← ho] at hs
        cases hs

theorem pollAll_time {α : Type} (flag : Nat → Bool) (fuel : Nat) :
    ∀ (qs : List (List α)) (t : Nat) (os : List (PollOut α)) (t'' : Nat)
      (qs' : List (List α)),
      pollAll flag fuel t qs = some (os, t'', qs') →
      t ≤ t'' ∧ os.length = qs.length ∧
      (∀ o ∈ os, o = PollOut.sawStop → ∃ u, u < t'' ∧ flag u = true) := by
  intro qs
  induction qs with
  | nil =>
    intro t os t'' qs' h
    simp only [pollAll, Option.some.injEq, Prod.mk.injEq] at h
    obtain ⟨hos, ht, hqs⟩ := h
    subst hos
    subst ht
    simp
  | cons q qs ih =>
    intro t os t'' qs' h
    rw [pollAll] at h
    cases hp : pollPort flag fuel t q with
    | none =>
      rw [hp] at h
      simp at h
    | some res =>
      obtain ⟨o, t1, q1⟩ := res
      rw [hp] at h
      simp only at h
      cases ha : pollAll flag fuel t1 qs with
      | none =>
        rw [ha] at h
        simp at h
      | some res2 =>
        obtain ⟨os2, t2, qs2⟩ := res2
        rw [ha] at h
        simp only [Option.some.injEq, Prod.mk.injEq] at h
        obtain ⟨hos, ht, hqs⟩ := h
        subst hos
        subst ht
        have h1 := pollPort_time flag fuel t q o t1 q1 hp
        have h2 := ih t1 os2 t2 qs2 ha
        refine ⟨le_trans (le_of_lt h1.1) h2.1, by simp [h2.2.1], ?_⟩
        intro o' ho' hs
        rcases List.mem_cons.mp ho' with hh | hh
        · subst hh
          refine ⟨t1 - 1, ?_, h1.2 hs⟩
          have h3 : t1 - 1 < t1 := by omega
          exact lt_of_lt_of_le h3 h2.1
        · exact h2.2.2 o' hh hs

/-- Claim C4: under a monotone stop flag, whenever an iteration of the
worker loop of `Block::execute_task` reaches the task execution point,
every input port of the worker has successfully popped in that
iteration; observing the stop flag set during input polling always makes
the iteration exit before executing, never executing on a partially
drained set of inputs. -/
theorem c4_exec_only_after_full_drain {α : Type} (flag : Nat → Bool)
    (hm : FlagMono flag) (fuel t : Nat) (qs : List (List α))
    (os : List (PollOut α)) (t' : Nat) (qs' : List (List α))
    (h : execIteration flag fuel t qs = some (IterOut.executed os, t', qs')) :
    os.length = qs.length ∧ ∀ o ∈ os, ∃ r, o = PollOut.popped r := by
  rw [execIteration] at h
  cases ha : pollAll flag fuel t qs with
  | none =>
    rw [ha] at h
    simp at h
  | some res =>
    obtain ⟨os2, t2, qs2⟩ := res
    rw [ha] at h
    by_cases hf : flag t2 = true
    · simp [hf] at h
    · simp only [hf, if_neg, if_false, Bool.false_eq_true, Option.some.injEq,
        Prod.mk.injEq, IterOut.executed.injEq] at h
      obtain ⟨hos, ht', hqs⟩ := h
      rw [← hos]
      have h2 := pollAll_time flag fuel qs t os2 t2 qs2 ha
      refine ⟨h2.2.1, ?_⟩
      intro o ho
      cases o with
      | popped r => exact ⟨r, rfl⟩
      | sawStop =>
        obtain ⟨u, hu, hfu⟩ := h2.2.2 _ ho rfl
        exact absurd (flagMono_le flag hm u t2 (Nat.le_of_lt hu) hfu) hf

/-- Witness for claim C4: a never-set flag, one input port holding one
record, fuel 2. -/
theorem c4_exec_only_after_full_drain_witness :
    ([PollOut.popped ([1] : Rcd)].length = [[([1] : Rcd)]].length) ∧
    (∀ o ∈ [PollOut.popped ([1] : Rcd)], ∃ r, o = PollOut.popped r) :=
  c4_exec_only_after_full_drain (fun _ => false) (fun _ h => h) 2 0
    [[[1]]] [PollOut.popped [1]] 2 [[]] (by decide)

theorem producedRcds_cons (op : FanOp) (ops : List FanOp) :
    producedRcds (op :: ops) = producedRcds [op] ++ producedRcds ops := by
  cases op <;> simp [producedRcds]

theorem fanStep_inv (st st1 : BSock × List Rcd × List Rcd) (op : FanOp)
    (h2 : st.1.buffers.length = 2) (hsd : st.1.socket_data.length = 2)
    (hs : fanStep st op = some st1) :
    st1.1.buffers.length = 2 ∧ st1.1.socket_data.length = 2 ∧
    st1.2.1 ++ bufDataAt st1.1 0 = st.2.1 ++ bufDataAt st.1 0 ++ producedRcds [op] ∧
    st1.2.2 ++ bufDataAt st1.1 1 = st.2.2 ++ bufDataAt st.1 1 ++ producedRcds [op] := by
  obtain ⟨s, ra, rb⟩ := st
  simp only at h2 hsd
  obtain ⟨x, y, hxy⟩ := List.length_eq_two.mp h2
  obtain ⟨a, b, hab⟩ := List.length_eq_two.mp hsd
  cases op with
  | produce r =>
    simp only [fanStep] at hs
    cases hbp : bsPush 1 (setStaging s r) with
    | none =>
      rw [hbp] at hs
      simp at hs
    | some s2 =>
      rw [hbp] at hs
      simp only [Option.some.injEq] at hs
      have hset : setStaging s r = { s with socket_data := r :: [b] } := by
        rw [setStaging, hab]
      have hshape := bsPush_shape 1 (setStaging s r) s2 r [b]
        (by rw [hset]) (by simp [hset, h2]) hbp
      rw [← hs]
      rw [hshape]
      simp [hset, hxy, bufDataAt, producedRcds, List.append_assoc]
  | drainA =>
    simp only [fanStep] at hs
    rw [hxy] at hs
    simp only at hs
    cases hxd : x.data with
    | nil =>
      rw [CB.pop, hxd] at hs
      simp at hs
      subst hs
      simp [producedRcds, hxy, hsd]
    | cons r xs =>
      rw [CB.pop, hxd] at hs
      simp at hs
      subst hs
      simp [producedRcds, hxy, bufDataAt, hxd, h2, hsd, List.append_assoc]
  | drainB =>
    simp only [fanStep] at hs
    rw [hxy] at hs
    simp only at hs
    cases hyd : y.data with
    | nil =>
      rw [CB.pop, hyd] at hs
      simp at hs
      subst hs
      simp [producedRcds, hxy, hsd]
    | cons r ys =>
      rw [CB.pop, hyd] at hs
      simp at hs
      subst hs
      simp [producedRcds, hxy, bufDataAt, hyd, h2, hsd, List.append_assoc]

theorem fanRun_inv :
    ∀ (ops : List FanOp) (st st' : BSock × List Rcd × List Rcd),
      st.1.buffers.length = 2 →
      st.1.socket_data.length = 2 →
      fanRun st ops = some st' →
      st'.2.1 ++ bufDataAt st'.1 0 = st.2.1 ++ bufDataAt st.1 0 ++ producedRcds ops ∧
      st'.2.2 ++ bufDataAt st'.1 1 = st.2.2 ++ bufDataAt st.1 1 ++ producedRcds ops := by
  intro ops
  induction ops with
  | nil =>
    intro st st' h2 hsd h
    simp only [fanRun, Option.some.injEq] at h
    rw [← h]
    simp [producedRcds]
  | cons op ops ih =>
    intro st st' h2 hsd h
    rw [fanRun] at h
    cases hs : fanStep st op with
    | none =>
      rw [hs] at h
      simp at h
    | some st1 =>
      rw [hs] at h
      simp only at h
      have hstep := fanStep_inv st st1 op h2 hsd hs
      have hrest := ih st1 st' hstep.1 hstep.2.1 h
      rw [producedRcds_cons]
      constructor
      · rw [hrest.1, hstep.2.2.1, List.append_assoc]
      · rw [hrest.2, hstep.2.2.2, List.append_assoc]

/-- Claim C8: binding a second consumer through `bind_cpy` creates a
fresh buffer-and-staging-record pair on the producer, giving the new
consumer an independent empty queue; afterwards, for every trace of
pushes and arbitrarily interleaved drains by the two consumers (a push
requiring a free slot in every owned buffer, the capacity bound of the
claim), the records drained by each consumer followed by the records
still in its queue equal the full produced sequence: both consumers
receive the identical sequence, in order, regardless of drain rates. -/
theorem c8_fanout_identical_delivery (c p : BSock) (b0 : CB Rcd) (d0 : Rcd)
    (hc : c.stype = SockType.IN) (hp : p.stype ≠ SockType.IN)
    (hcap : 1 ≤ p.buffer_size)
    (hbuf : p.buffers = [b0]) (hsd : p.socket_data = [d0]) :
    bsBindCpy c p = some (0,
      { c with buffers := c.buffers ++ [⟨p.buffer_size.toNat, [], false⟩] },
      { p with
        socket_data := p.socket_data ++ [List.replicate p.n_elt 0],
        buffers := p.buffers ++ [⟨p.buffer_size.toNat, [], false⟩] }) ∧
    (∀ (ops : List FanOp) (st' : BSock × List Rcd × List Rcd),
       fanRun ({ p with
                 socket_data := p.socket_data ++ [List.replicate p.n_elt 0],
                 buffers := p.buffers ++ [⟨p.buffer_size.toNat, [], false⟩] },
               [], []) ops = some st' →
       st'.2.1 ++ bufDataAt st'.1 0 = b0.data ++ producedRcds ops ∧
       st'.2.2 ++ bufDataAt st'.1 1 = producedRcds ops) := by
  have hmk : mkCB Rcd p.buffer_size = some ⟨p.buffer_size.toNat, [], false⟩ := by
    rw [mkCB, if_neg (not_lt.mpr hcap)]
  have hcn : createNewOutBuffer p = some
      { p with
        socket_data := p.socket_data ++ [List.replicate p.n_elt 0],
        buffers := p.buffers ++ [⟨p.buffer_size.toNat, [], false⟩] } := by
    rw [createNewOutBuffer, if_neg hp, hmk]
  have hbl2 : p.buffers.getLast? = some b0 := by
    rw [hbuf]
    rfl
  constructor
  · rw [bsBindCpy, if_pos hc, hbl2, hcn]
    simp [List.getLast?_concat]
  · intro ops st' h
    have hinv := fanRun_inv ops _ st' (by simp [hbuf]) (by simp [hsd]) h
    simpa [bufDataAt, hbuf] using hinv

/-- Witness for claim C8 at the concrete sockets `cIn7` and `pOut7`. -/
theorem c8_fanout_identical_delivery_witness :
    bsBindCpy cIn7 pOut7 = some (0,
      { cIn7 with buffers := cIn7.buffers ++ [⟨pOut7.buffer_size.toNat, [], false⟩] },
      { pOut7 with
        socket_data := pOut7.socket_data ++ [List.replicate pOut7.n_elt 0],
        buffers := pOut7.buffers ++ [⟨pOut7.buffer_size.toNat, [], false⟩] }) ∧
    (∀ (ops : List FanOp) (st' : BSock × List Rcd × List Rcd),
       fanRun ({ pOut7 with
                 socket_data := pOut7.socket_data ++ [List.replicate pOut7.n_elt 0],
                 buffers := pOut7.buffers ++ [⟨pOut7.buffer_size.toNat, [], false⟩] },
               [], []) ops = some st' →
       st'.2.1 ++ bufDataAt st'.1 0 = (⟨4, [], false⟩ : CB Rcd).data ++ producedRcds ops ∧
       st'.2.2 ++ bufDataAt st'.1 1 = producedRcds ops) :=
  c8_fanout_identical_delivery cIn7 pOut7 ⟨4, [], false⟩ [0] rfl (by decide)
    (by decide) rfl rfl

theorem blockMakeAux_none (cap : Int) (hcap : cap ≤ 0) :
    ∀ (decls : List SockDecl) (acc : Blk) (d : SockDecl),
      d ∈ decls → d.stype ≠ SockType.IN → (kindOfString d.dtype).isSome = true →
      blockMakeAux cap acc decls = none := by
  intro decls
  induction decls with
  | nil =>
    intro acc d hd
    simp at hd
  | cons e ds ih =>
    intro acc d hd hdt hk
    rcases List.mem_cons.mp hd with rfl | hmem
    · cases hks : kindOfString d.dtype with
      | none =>
        rw [hks] at hk
        simp at hk
      | some k =>
        have hmb : mkBSock d.stype d.n_elt cap = none := by
          rw [mkBSock, if_neg hdt]
          rw [show mkCB Rcd cap = none from by rw [mkCB, if_pos (by omega)]]
        simp [blockMakeAux, hks, hmb]
    · cases hke : kindOfString e.dtype with
      | none =>
        simp only [blockMakeAux, hke]
        exact ih _ d hmem hdt hk
      | some k =>
        cases hmb : mkBSock e.stype e.n_elt cap with
        | none => simp [blockMakeAux, hke, hmb]
        | some s =>
          by_cases he : e.stype = SockType.IN
          · simp only [blockMakeAux, hke, hmb, he, if_pos]
            exact ih _ d hmem hdt hk
          · simp only [blockMakeAux, hke, hmb, he, if_neg, if_false]
            exact ih _ d hmem hdt hk

/-- Claim C9 as stated is false on the code: an input-direction buffered
port constructs no ring buffer at all (`Buffered_Socket.cpp` lines
22-23), so no capacity check can fire for it: construction of an input
port with capacity 0 succeeds, as does construction of a stage whose
only declared socket is such an input port. -/
theorem c9_counterexample :
    mkBSock SockType.IN 3 0 = some ⟨SockType.IN, 3, 0, [[0, 0, 0]], [], 0⟩ ∧
    blockMake [⟨"in", SockType.IN, "int32", 1⟩] 0
      = some ⟨[("in", ⟨ScalarKind.int32, ⟨SockType.IN, 1, 0, [[0]], [], 0⟩⟩)], []⟩ := by
  refine ⟨?_, ?_⟩ <;> decide

/-- Claim C9 amended: a capacity of zero or a negative value makes
construction fail fast exactly when a ring buffer is actually
constructed: for every output or in-out buffered port, and for every
stage whose task declares at least one output or in-out socket of a
recognised scalar kind.  A pure input port (or a stage all of whose
recognised sockets are inputs) performs no capacity check and
constructs successfully, storing the invalid capacity. -/
theorem c9_capacity_check_only_for_output_ports (stype : SockType) (n_elt : Nat)
    (cap : Int) (hst : stype ≠ SockType.IN) (hcap : cap ≤ 0) :
    mkBSock stype n_elt cap = none ∧
    (∀ (decls : List SockDecl) (d : SockDecl), d ∈ decls → d.stype ≠ SockType.IN →
       (kindOfString d.dtype).isSome = true → blockMake decls cap = none) := by
  constructor
  · rw [mkBSock, if_neg hst]
    rw [show mkCB Rcd cap = none from by rw [mkCB, if_pos (by omega)]]
  · intro decls d hd hdt hk
    exact blockMakeAux_none cap hcap decls _ d hd hdt hk

/-- Witness for the amended claim C9 at capacity 0. -/
theorem c9_capacity_check_only_for_output_ports_witness :
    mkBSock SockType.OUT 3 0 = none ∧
    (∀ (decls : List SockDecl) (d : SockDecl), d ∈ decls → d.stype ≠ SockType.IN →
       (kindOfString d.dtype).isSome = true → blockMake decls 0 = none) :=
  c9_capacity_check_only_for_output_ports SockType.OUT 3 0 (by decide) (by decide)

theorem lookupPort_append_ne (l : List (String × Port)) (nm n2 : String) (p : Port)
    (hne : n2 ≠ nm) (h : lookupPort l nm = none) :
    lookupPort (l ++ [(n2, p)]) nm = none := by
  induction l with
  | nil => simp [lookupPort, hne]
  | cons e rest ih =>
    simp only [List.cons_append, lookupPort] at h ⊢
    by_cases he : e.1 = nm
    · rw [if_pos he] at h
      exact absurd h (by simp)
    · rw [if_neg he] at h ⊢
      exact ih h

theorem emplace_lookup_none (l : List (String × Port)) (nm n2 : String) (p : Port)
    (hne : n2 ≠ nm) (h : lookupPort l nm = none) :
    lookupPort (emplace l n2 p) nm = none := by
  rw [emplace]
  cases hl : lookupPort l n2 with
  | some q => exact h
  | none => exact lookupPort_append_ne l nm n2 p hne h

theorem blockMakeAux_absent (cap : Int) (nm : String) :
    ∀ (decls : List SockDecl) (acc blk : Blk),
      (∀ d ∈ decls, d.name = nm → kindOfString d.dtype = none) →
      lookupPort acc.ins nm = none →
      lookupPort acc.outs nm = none →
      blockMakeAux cap acc decls = some blk →
      lookupPort blk.ins nm = none ∧ lookupPort blk.outs nm = none := by
  intro decls
  induction decls with
  | nil =>
    intro acc blk hall hi ho h
    simp only [blockMakeAux, Option.some.injEq] at h
    rw [← h]
    exact ⟨hi, ho⟩
  | cons e ds ih =>
    intro acc blk hall hi ho h
    cases hke : kindOfString e.dtype with
    | none =>
      rw [blockMakeAux, hke] at h
      exact ih acc blk (fun d hd => hall d (List.mem_cons_of_mem e hd)) hi ho h
    | some k =>
      have hne : e.name ≠ nm := by
        intro hcon
        have hh := hall e (List.mem_cons_self e ds) hcon
        rw [hh] at hke
        cases hke
      rw [blockMakeAux, hke] at h
      simp only at h
      cases hmb : mkBSock e.stype e.n_elt cap with
      | none =>
        rw [hmb] at h
        simp at h
      | some s =>
        rw [hmb] at h
        simp only at h
        by_cases he : e.stype = SockType.IN
        · rw [if_pos he] at h
          refine ih { ins := emplace acc.ins e.name ⟨k, s⟩, outs := acc.outs } blk
            (fun d hd => hall d (List.mem_cons_of_mem e hd)) ?_ ho h
          exact emplace_lookup_none acc.ins nm e.name ⟨k, s⟩ hne hi
        · rw [if_neg he] at h
          refine ih { ins := acc.ins, outs := emplace acc.outs e.name ⟨k, s⟩ } blk
            (fun d hd => hall d (List.mem_cons_of_mem e hd)) hi ?_ h
          exact emplace_lookup_none acc.outs nm e.name ⟨k, s⟩ hne ho

theorem blockBind_absent_err (b : Blk) (nm : String) (dest : Blk) (dn : String)
    (h : lookupPort b.ins nm = none) :
    blockBind b nm dest dn = BindOut.err := by
  have hg : ∀ k, getIn b nm k = none := by
    intro k
    rw [getIn, h]
  rw [blockBind, kindList]
  simp [blockBindGo, hg]

theorem blockBindGo_crash (b : Blk) (start : String) (dest : Blk) (dn : String)
    (p : Port) (hin : lookupPort b.ins start = some p)
    (hout : lookupPort dest.outs dn = none) :
    ∀ ks : List ScalarKind, p.kind ∈ ks →
      blockBindGo b start dest dn ks = BindOut.crash := by
  intro ks
  induction ks with
  | nil =>
    intro hmem
    simp at hmem
  | cons k ks ih =>
    intro hmem
    by_cases hk : p.kind = k
    · have h1 : getIn b start k = some p := by
        simp [getIn, hin, hk]
      have h2 : getOut dest dn k = none := by
        simp [getOut, hout]
      simp [blockBindGo, h1, h2, bindCall]
    · have h1 : getIn b start k = none := by
        simp [getIn, hin, hk]
      simp only [blockBindGo, h1]
      rcases List.mem_cons.mp hmem with heq | hm
      · exact absurd heq hk
      · exact ih hm

theorem blockBind_missing_dest_crash (b : Blk) (start : String) (dest : Blk)
    (dn : String) (p : Port) (hin : lookupPort b.ins start = some p)
    (hout : lookupPort dest.outs dn = none) :
    blockBind b start dest dn = BindOut.crash := by
  rw [blockBind]
  apply blockBindGo_crash b start dest dn p hin hout
  cases p.kind <;> decide

/-- Claim C10 as stated is false on the code: the stage constructor
silently skips the output socket X declared with the unrecognised
datatype string bit (first conjunct), but a later bind naming X as the
destination of an existing start port does not fail as a nonexistent
port: `Block::bind` passes the null `get_buffered_socket_out` result
into `Buffered_Socket::bind`, which dereferences it (second conjunct),
instead of returning the reported error (third conjunct). -/
theorem c10_bind_as_destination_counterexample :
    blockMake [⟨"X", SockType.OUT, "bit", 2⟩] 8 = some ⟨[], []⟩ ∧
    blockBind cBlkC2 ("U_K") (⟨[], []⟩ : Blk) ("X") = BindOut.crash ∧
    BindOut.crash ≠ BindOut.err := by
  refine ⟨by decide, by decide, by decide⟩

/-- Claim C10 amended: a declared task socket whose datatype string is
not one of the six recognised kinds yields no buffered port and no
error: stage construction succeeds without reporting anything (shown
for the stage consisting of that socket alone, whatever the capacity),
and the name is absent from both port maps of any successfully
constructed stage all of whose sockets with this name have unrecognised
datatype strings.  A later stage-level bind using the name on the start
(consumer input) side takes the reported nonexistent-port error path;
a later bind naming it as the destination of an existing start port
dereferences a null pointer, the behaviour of any name absent from the
destination output map, not a reported error. -/
theorem c10_unknown_kind_skipped_bind_paths (nm : String) (decls : List SockDecl)
    (cap : Int) (blk : Blk)
    (hall : ∀ d ∈ decls, d.name = nm → kindOfString d.dtype = none)
    (hmk : blockMake decls cap = some blk) :
    lookupPort blk.ins nm = none ∧ lookupPort blk.outs nm = none ∧
    (∀ (dest : Blk) (dn : String), blockBind blk nm dest dn = BindOut.err) ∧
    (∀ (src : Blk) (start : String) (p : Port), lookupPort src.ins start = some p →
       blockBind src start blk nm = BindOut.crash) ∧
    (∀ d : SockDecl, kindOfString d.dtype = none → blockMake [d] cap = some ⟨[], []⟩) := by
  have habs := blockMakeAux_absent cap nm decls ⟨[], []⟩ blk hall rfl rfl hmk
  refine ⟨habs.1, habs.2, ?_, ?_, ?_⟩
  · intro dest dn
    exact blockBind_absent_err blk nm dest dn habs.1
  · intro src start p hin
    exact blockBind_missing_dest_crash src start blk nm p hin habs.2
  · intro d hk
    simp [blockMake, blockMakeAux, hk]

/-- Witness for the amended claim C10: a single output socket declared
with the unrecognised datatype string bit. -/
theorem c10_unknown_kind_skipped_bind_paths_witness :
    lookupPort (Blk.mk [] []).ins ("X") = none ∧
    lookupPort (Blk.mk [] []).outs ("X") = none ∧
    (∀ (dest : Blk) (dn : String), blockBind (Blk.mk [] []) ("X") dest dn = BindOut.err) ∧
    (∀ (src : Blk) (start : String) (p : Port), lookupPort src.ins start = some p →
       blockBind src start (Blk.mk [] []) ("X") = BindOut.crash) ∧
    (∀ d : SockDecl, kindOfString d.dtype = none → blockMake [d] 8 = some ⟨[], []⟩) :=
  c10_unknown_kind_skipped_bind_paths ("X") [⟨"X", SockType.OUT, "bit", 2⟩] 8 ⟨[], []⟩
    (by decide) (by decide)
